import Mathlib

/-!
Shallow embedding of the Queez live-multiplayer quiz backend
(`app/services/session_manager.py`, `app/services/game_controller.py`,
`app/services/leaderboard_manager.py`, `app/api/routes/websocket.py`,
`app/api/routes/live_multiplayer.py`).

The embedding models one existing session (Redis hash `session:<code>`),
its per-participant cursor keys `participant:<code>:<user>:question_index`,
and the read-only quiz store, as one sequential `GameState`.  Python dicts
are modelled as insertion-ordered association lists (update keeps position,
new keys are appended), machine floats/ints as `ℚ`/`ℤ`, and fallible paths
as explicit error/exception outcomes.
-/

namespace Queez

/-- Lookup in a Python-dict-like association list. -/
def dictGet {α : Type} (m : List (String × α)) (k : String) : Option α :=
  (m.find? (fun p => p.1 == k)).map (·.2)

/-- Python dict assignment `m[k] = v`: updating an existing key keeps its
position, a new key is appended at the end. -/
def dictSet {α : Type} (m : List (String × α)) (k : String) (v : α) : List (String × α) :=
  if m.any (fun p => p.1 == k) then
    m.map (fun p => if p.1 == k then (k, v) else p)
  else
    m ++ [(k, v)]

/-- Python `questions[i]`: non-negative indices from the front, negative
indices from the back, anything out of range raises (`none`). -/
def pyGet? {α : Type} (xs : List α) (i : Int) : Option α :=
  if 0 ≤ i then xs.get? i.toNat
  else if 0 ≤ i + xs.length then xs.get? (i + xs.length).toNat
  else none

/-- Python `set(a) == set(b)` on lists of ints. -/
def intSetEq (a b : List Int) : Bool :=
  a.all (fun x => b.contains x) && b.all (fun x => a.contains x)

/-- Python `==` on two dicts (string keys and values): same key set, same
value at every key. -/
def dictEq (a b : List (String × String)) : Bool :=
  a.all (fun p => dictGet b p.1 == some p.2) &&
  b.all (fun p => dictGet a p.1 == some p.2)

/-- The union of JSON answer shapes a client can submit
(`answer` in the `submit_answer` payload): an integer, a list of
integers, or a string-keyed mapping. -/
inductive AnswerValue : Type
  | int (n : Int)
  | list (ns : List Int)
  | dict (m : List (String × String))
deriving Repr, DecidableEq

/-- One quiz question as stored in MongoDB (fields read by the engine;
absent optional fields are `none` / `[]`). -/
structure Question : Type where
  questionText : Option String
  questionField : Option String
  qtype : Option String
  qid : Option String
  options : List String
  correctAnswerIndex : Option Int
  correctAnswerIndices : Option (List Int)
  correctMatches : Option (List (String × String))
deriving Repr, DecidableEq

/-- A quiz document: title plus its question list. -/
structure QuizDoc : Type where
  title : String
  questions : List Question
deriving Repr, DecidableEq

/-- An entry of a participant's `answers` array. -/
structure AnswerRecord : Type where
  question_index : Int
  answer : AnswerValue
  timestamp : ℚ
  is_correct : Bool
  points_earned : Int
deriving Repr, DecidableEq

/-- One value of the session's `participants` map. -/
structure Participant : Type where
  user_id : String
  username : String
  joined_at : String
  connected : Bool
  score : Int
  answers : List AnswerRecord
deriving Repr, DecidableEq

/-- The sequential state the handlers operate on: the session hash, the
per-participant cursor keys, and the (read-only) quiz store. -/
structure GameState : Type where
  session_code : String
  quiz_id : Option String
  host_id : String
  status : String
  mode : String
  current_question_index : Int
  total_questions : Int
  per_question_time_limit : Option Int
  question_start_time : Option String
  created_at : String
  expires_at : String
  participants : List (String × Participant)
  cursors : List (String × Int)
  quizzes : List (String × QuizDoc)
deriving Repr, DecidableEq

/-- Config default of `QUESTION_TIME_SECONDS` (`app/core/config.py`). -/
def QUESTION_TIME_SECONDS : Int := 30

/-- Time-based scoring of `GameController.submit_answer` (lines 177-188):
`points = 0` when incorrect; otherwise `1000` plus a time bonus that is
computed only when `timestamp` is truthy (non-zero), as
`int(max(0, (1 - min(timestamp, QUESTION_TIME_SECONDS) / QUESTION_TIME_SECONDS) * 500))`. -/
def computePoints (is_correct : Bool) (timestamp : ℚ) : Int :=
  if is_correct then
    let time_bonus : Int :=
      if timestamp == 0 then 0
      else
        let elapsed : ℚ := min timestamp (QUESTION_TIME_SECONDS : ℚ)
        (max 0 ((1 - elapsed / (QUESTION_TIME_SECONDS : ℚ)) * 500)).floor
    1000 + time_bonus
  else 0

/-- The scoring rule as the specification words it: `elapsed` clamps the
client timestamp into `[0, L]` for the session limit `L`, and the bonus is
`floor(max(0, 1 - elapsed/L) * 500)` on top of the base 1000. -/
def specPoints (L : ℚ) (timestamp : ℚ) : Int :=
  let elapsed : ℚ := min (max timestamp 0) L
  1000 + (max 0 ((1 - elapsed / L) * 500)).floor

/-- SessionManager.create_session: fresh state with `status="waiting"`,
index 0, empty participants; raises (`none`) when the quiz is missing. -/
def create_session (code quiz_id host mode created_at expires_at : String)
    (qs : List (String × QuizDoc)) : Option GameState :=
  match dictGet qs quiz_id with
  | none => none
  | some quiz =>
      some { session_code := code
             quiz_id := some quiz_id
             host_id := host
             status := "waiting"
             mode := mode
             current_question_index := 0
             total_questions := quiz.questions.length
             per_question_time_limit := none
             question_start_time := none
             created_at := created_at
             expires_at := expires_at
             participants := []
             cursors := []
             quizzes := qs }

/-- Python `int(x)` on a float: truncation toward zero. -/
def pyTrunc (q : ℚ) : Int :=
  if q < 0 then -((-q).floor) else q.floor

/-- SessionManager.is_host: compares the stored `host_id` with the user. -/
def is_host (s : GameState) (user : String) : Bool :=
  s.host_id == user

/-- SessionManager.add_participant (with `now` standing for
`datetime.utcnow().isoformat()`): rejects the host; reconnects an existing
user (sets `connected`, refreshes `username`); otherwise appends a fresh
participant with score 0 and no answers.  Returns the success flag. -/
def add_participant (s : GameState) (now user username : String) :
    Bool × GameState :=
  if user == s.host_id then (false, s)
  else
    match dictGet s.participants user with
    | some p =>
        let p' : Participant := { p with connected := true, username := username }
        (true, { s with participants := dictSet s.participants user p' })
    | none =>
        let p' : Participant :=
          { user_id := user, username := username, joined_at := now,
            connected := true, score := 0, answers := [] }
        (true, { s with participants := dictSet s.participants user p' })

/-- SessionManager.remove_participant: only flips `connected` to false. -/
def remove_participant (s : GameState) (user : String) : GameState :=
  match dictGet s.participants user with
  | none => s
  | some p =>
      { s with participants := dictSet s.participants user { p with connected := false } }

/-- SessionManager.start_session: host check, then `status := "active"`. -/
def start_session (s : GameState) (host_id : String) : Bool × GameState :=
  if s.host_id != host_id then (false, s)
  else (true, { s with status := "active" })

/-- SessionManager.end_session: `status := "completed"`. -/
def end_session (s : GameState) : GameState :=
  { s with status := "completed" }

/-- GameController.advance_question: increments the session-wide
`current_question_index` and resets `question_start_time`. -/
def advance_question (s : GameState) (now : String) : GameState :=
  { s with current_question_index := s.current_question_index + 1,
           question_start_time := some now }

/-- GameController.start_question_timer. -/
def start_question_timer (s : GameState) (now : String) : GameState :=
  { s with question_start_time := some now }

/-- GameController.set_participant_question_index: writes the per-user
cursor key `participant:<code>:<user>:question_index`. -/
def set_participant_question_index (s : GameState) (user : String) (index : Int) :
    GameState :=
  { s with cursors := dictSet s.cursors user index }

/-- Python `max(ans["question_index"] for ans in answers)` (none on empty). -/
def maxAnswerIndex : List AnswerRecord → Option Int
  | [] => none
  | a :: rest => some (rest.foldl (fun m r => max m r.question_index) a.question_index)

/-- GameController.get_participant_question_index: the cached cursor key if
set, else the highest answered index, else 0. -/
def get_participant_question_index (s : GameState) (user : String) : Int :=
  match dictGet s.cursors user with
  | some i => i
  | none =>
      match dictGet s.participants user with
      | some p =>
          match maxAnswerIndex p.answers with
          | some m => m
          | none => 0
      | none => 0

/-- GameController.get_total_questions: 0 when the session has no quiz or
the quiz is missing. -/
def get_total_questions (s : GameState) : Int :=
  match s.quiz_id with
  | none => 0
  | some qid =>
      match dictGet s.quizzes qid with
      | none => 0
      | some quiz => quiz.questions.length

/-- The normalized question payload built by the question-retrieval
helpers (plus the `index`, `total` and `time_remaining` wrapper fields). -/
structure QuestionPayload : Type where
  question : String
  questionType : String
  options : List String
  id : String
  correctAnswerIndex : Option Int
  correctAnswerIndices : Option (List Int)
  correctMatches : Option (List (String × String))
  index : Int
  total : Int
  time_remaining : Int
deriving Repr, DecidableEq

/-- Python str.strip restricted to ASCII whitespace: drops leading and
trailing blanks (what `not question_text.strip()` tests). -/
def pyStrip (s : String) : String :=
  let ws := fun c : Char => c == ' ' || c == '\t' || c == '\n' || c == '\r'
  String.mk (((s.toList.dropWhile ws).reverse.dropWhile ws).reverse)

/-- GameController.get_question_by_index: `none` for a missing quiz, an
out-of-range index or blank question text; `error` for the IndexError a
negative out-of-range Python index would raise. -/
def get_question_by_index (s : GameState) (index : Int) :
    Except String (Option QuestionPayload) :=
  match s.quiz_id with
  | none => .ok none
  | some qid =>
      match dictGet s.quizzes qid with
      | none => .ok none
      | some quiz =>
          if (quiz.questions.length : Int) ≤ index then .ok none
          else
            match pyGet? quiz.questions index with
            | none => .error "IndexError"
            | some q =>
                let question_text := q.questionText.getD (q.questionField.getD "")
                let question_type := q.qtype.getD "single"
                if pyStrip question_text == "" then .ok none
                else
                  .ok (some
                    { question := question_text
                      questionType := question_type
                      options := q.options
                      id := q.qid.getD (toString index)
                      correctAnswerIndex := q.correctAnswerIndex
                      correctAnswerIndices := q.correctAnswerIndices
                      correctMatches := q.correctMatches
                      index := index
                      total := quiz.questions.length
                      time_remaining := QUESTION_TIME_SECONDS })

/-- GameController.get_current_question: like `get_question_by_index` at
the session-wide index, with `time_remaining` derived from the elapsed
time since `question_start_time` (passed in as `elapsed`). -/
def get_current_question (s : GameState) (elapsed : Option ℚ) :
    Option QuestionPayload :=
  match s.quiz_id with
  | none => none
  | some qid =>
      match dictGet s.quizzes qid with
      | none => none
      | some quiz =>
          if (quiz.questions.length : Int) ≤ s.current_question_index then none
          else
            match pyGet? quiz.questions s.current_question_index with
            | none => none
            | some q =>
                let question_text := q.questionText.getD (q.questionField.getD "")
                let question_type := q.qtype.getD "single"
                if pyStrip question_text == "" then none
                else
                  let time_remaining : Int :=
                    match s.question_start_time, elapsed with
                    | some _, some e => max 0 (QUESTION_TIME_SECONDS - pyTrunc e)
                    | _, _ => QUESTION_TIME_SECONDS
                  some
                    { question := question_text
                      questionType := question_type
                      options := q.options
                      id := q.qid.getD (toString s.current_question_index)
                      correctAnswerIndex := q.correctAnswerIndex
                      correctAnswerIndices := q.correctAnswerIndices
                      correctMatches := q.correctMatches
                      index := s.current_question_index
                      total := quiz.questions.length
                      time_remaining := time_remaining }

/-- Python `int(answer)`: succeeds on an int, raises TypeError on a list
or a dict. -/
def pyInt? : AnswerValue → Option Int
  | .int n => some n
  | .list _ => none
  | .dict _ => none

/-- Outcome of the answer-validation block of submit_answer: a structured
error reply, a raised exception, or the computed correctness flag. -/
inductive ValResult : Type
  | verr (message : String)
  | vexn (message : String)
  | vok (is_correct : Bool)
deriving Repr, DecidableEq

/-- Answer validation of GameController.submit_answer (lines 133-175),
dispatched on the question type (default `"singleMcq"` applied by the
caller). -/
def validateAnswer (question_type : String) (q : Question) (answer : AnswerValue) :
    ValResult :=
  if question_type == "singleMcq" || question_type == "trueFalse" then
    match q.correctAnswerIndex with
    | none => .verr "Invalid question configuration"
    | some correct =>
        match pyInt? answer with
        | none => .vexn "TypeError"
        | some n => .vok (n == correct)
  else if question_type == "multiMcq" then
    let correct_answers := q.correctAnswerIndices.getD []
    if correct_answers.isEmpty then .verr "Invalid question configuration"
    else
      match answer with
      | .dict _ => .vexn "TypeError"
      | .int n => .vok (intSetEq [n] correct_answers)
      | .list ns => .vok (intSetEq ns correct_answers)
  else if question_type == "dragAndDrop" then
    let correct_matches := q.correctMatches.getD []
    if correct_matches.isEmpty then .verr "Invalid question configuration"
    else
      match answer with
      | .dict m => .vok (dictEq m correct_matches)
      | _ => .vok (dictEq [] correct_matches)
  else .verr "Unknown question type"

/-- The `correct_answer` field echoed in a successful submit reply:
`str(correctAnswerIndex)`, the index list, or the match dict. -/
inductive CorrectAnswerResp : Type
  | strA (v : String)
  | listA (vs : List Int)
  | mapA (kv : List (String × String))
  | noneA
deriving Repr, DecidableEq

/-- Builds the `correct_answer` reply field (submit_answer lines 216-223). -/
def correctAnswerResp (question_type : String) (q : Question) : CorrectAnswerResp :=
  if question_type == "singleMcq" || question_type == "trueFalse" then
    .strA (match q.correctAnswerIndex with
           | some n => toString n
           | none => "None")
  else if question_type == "multiMcq" then .listA (q.correctAnswerIndices.getD [])
  else if question_type == "dragAndDrop" then .mapA (q.correctMatches.getD [])
  else .noneA

/-- Result of GameController.submit_answer: a structured `{error: ...}`
reply, a raised exception (swallowed by the dispatch loop), or the
success payload. -/
inductive SubmitOutcome : Type
  | err (message : String)
  | exn (message : String)
  | ok (is_correct : Bool) (points : Int) (correct_answer : CorrectAnswerResp)
       (new_total_score : Int) (question_type : String)
deriving Repr, DecidableEq

/-- GameController.submit_answer (lines 102-234): resolves the
participant's own question index, validates the answer against that
question, computes the time-bonus points, rejects duplicates, and appends
the AnswerRecord while adding the points to the score. -/
def submit_answer (s : GameState) (user : String) (answer : AnswerValue)
    (timestamp : ℚ) : SubmitOutcome × GameState :=
  let current_index := get_participant_question_index s user
  match s.quiz_id with
  | none => (.err "Session not found", s)
  | some qid =>
      match dictGet s.quizzes qid with
      | none => (.err "Quiz not found", s)
      | some quiz =>
          if (quiz.questions.length : Int) ≤ current_index then
            (.err "Invalid question index", s)
          else
            match pyGet? quiz.questions current_index with
            | none => (.exn "IndexError", s)
            | some q =>
                let question_type := q.qtype.getD "singleMcq"
                match validateAnswer question_type q answer with
                | .verr m => (.err m, s)
                | .vexn m => (.exn m, s)
                | .vok is_correct =>
                    let points := computePoints is_correct timestamp
                    match dictGet s.participants user with
                    | none => (.err "Participant not found", s)
                    | some p =>
                        if p.answers.any (fun r => r.question_index == current_index) then
                          (.err "Already answered", s)
                        else
                          let newRecord : AnswerRecord :=
                            { question_index := current_index, answer := answer,
                              timestamp := timestamp, is_correct := is_correct,
                              points_earned := points }
                          let p' : Participant :=
                            { p with answers := p.answers ++ [newRecord],
                                     score := p.score + points }
                          (.ok is_correct points (correctAnswerResp question_type q)
                             p'.score question_type,
                           { s with participants := dictSet s.participants user p' })

/-- One row of the live leaderboard (LeaderboardManager.get_leaderboard). -/
structure LeaderboardEntry : Type where
  user_id : String
  username : String
  score : Int
  answered_count : Nat
  total_questions : Int
  current_question : Int
  is_connected : Bool
  position : Nat
deriving Repr, DecidableEq

/-- The rows in participants-map order, before sorting (position 0). -/
def lbEntries (s : GameState) : List LeaderboardEntry :=
  s.participants.map (fun pr =>
    { user_id := pr.1
      username := pr.2.username
      score := pr.2.score
      answered_count := pr.2.answers.length
      total_questions := s.total_questions
      current_question := s.current_question_index + 1
      is_connected := pr.2.connected
      position := 0 })

/-- The Python sort key `(-score, answered_count)`. -/
def lbKey (e : LeaderboardEntry) : Int × Nat :=
  (-e.score, e.answered_count)

/-- Strict lexicographic comparison of sort keys. -/
def lbKeyLt (a b : Int × Nat) : Bool :=
  a.1 < b.1 || (a.1 == b.1 && a.2 < b.2)

/-- Stable insertion: the new element goes after every element whose key
is less than or equal to its own, as Python's stable `list.sort` keeps
equal-key elements in encounter order. -/
def insertStable (x : LeaderboardEntry) : List LeaderboardEntry → List LeaderboardEntry
  | [] => [x]
  | y :: ys => if lbKeyLt (lbKey x) (lbKey y) then x :: y :: ys else y :: insertStable x ys

/-- Stable sort by `lbKey` (insertion sort, processing in list order). -/
def stableSortLb (xs : List LeaderboardEntry) : List LeaderboardEntry :=
  xs.foldl (fun acc x => insertStable x acc) []

/-- LeaderboardManager.get_leaderboard: rows sorted by
`(-score, answered_count)` with the stable sort, then 1-based positions. -/
def get_leaderboard (s : GameState) : List LeaderboardEntry :=
  (stableSortLb (lbEntries s)).enum.map (fun pr => { pr.2 with position := pr.1 + 1 })

/-- Python `round(q, 1)` (round-half-to-even at one decimal). -/
def roundHalfEven (q : ℚ) : Int :=
  let f := q.floor
  if q - f < 1/2 then f
  else if 1/2 < q - f then f + 1
  else if f % 2 == 0 then f else f + 1

/-- Python `round(x, 1)`. -/
def pyRound1 (q : ℚ) : ℚ :=
  (roundHalfEven (q * 10) : ℚ) / 10

/-- One final-results row: a leaderboard row extended with accuracy stats
(`none` when the row's user is missing from the participants map). -/
structure FinalEntry : Type where
  entry : LeaderboardEntry
  accuracy : Option ℚ
  correct_answers : Option Nat
  wrong_answers : Option Nat
deriving Repr, DecidableEq

/-- LeaderboardManager.calculate_final_results: extends each leaderboard
row with accuracy, correct and wrong counts. -/
def calculate_final_results (s : GameState) : List FinalEntry :=
  (get_leaderboard s).map (fun e =>
    match dictGet s.participants e.user_id with
    | some p =>
        if p.answers.isEmpty then
          { entry := e, accuracy := some 0, correct_answers := some 0,
            wrong_answers := some 0 }
        else
          let correct_count := (p.answers.filter (fun a => a.is_correct)).length
          { entry := e
            accuracy := some (pyRound1 ((correct_count : ℚ) / p.answers.length * 100))
            correct_answers := some correct_count
            wrong_answers := some (p.answers.length - correct_count) }
    | none => { entry := e, accuracy := none, correct_answers := none,
                wrong_answers := none })

/-- LeaderboardManager.get_final_results (alias). -/
def get_final_results (s : GameState) : List FinalEntry :=
  calculate_final_results s

/-- Outbound websocket messages built by the handlers (payload fields the
handlers actually fill). -/
inductive OutMsg : Type
  | session_state (status : String) (participants : List Participant)
      (participant_count : Nat)
  | session_update (status : String) (participant_count : Nat)
      (participants : List Participant)
  | errorMsg (message : String)
  | questionMsg (payload : QuestionPayload)
  | quiz_started (per_question_time_limit : Int)
  | quiz_completed (results : List FinalEntry)
  | quiz_ended (results : List FinalEntry)
  | answer_result (outcome : SubmitOutcome)
  | leaderboard_update (entries : List LeaderboardEntry)
deriving Repr, DecidableEq

/-- A send either to the requesting connection or to the whole session. -/
inductive Send : Type
  | personal (m : OutMsg)
  | broadcast (m : OutMsg)
deriving Repr, DecidableEq

/-- A handler either sends messages or raises; a raised exception is
swallowed by the dispatch loop (logged, nothing sent). -/
inductive HandlerResult : Type
  | sent (msgs : List Send)
  | raised (e : String)
deriving Repr, DecidableEq

/-- handle_join (websocket.py lines 86-193): the host gets the session
state echoed without being added; a new participant is rejected outside
`waiting`; otherwise add/reconnect, broadcast `session_update`, echo
`session_state`, and send the current question to an active
reconnector. -/
def handle_join (s : GameState) (now user username : String) (elapsed : Option ℚ) :
    HandlerResult × GameState :=
  if is_host s user then
    (.sent [.personal (.session_state s.status (s.participants.map (·.2))
              s.participants.length)], s)
  else
    let is_reconnecting := (dictGet s.participants user).isSome
    if s.status != "waiting" && !is_reconnecting then
      (.sent [.personal (.errorMsg "Session is already active")], s)
    else
      match add_participant s now user username with
      | (false, s1) => (.sent [], s1)
      | (true, s1) =>
          let plist := s1.participants.map (·.2)
          let base : List Send :=
            [.broadcast (.session_update s1.status plist.length plist),
             .personal (.session_state s1.status plist plist.length)]
          if is_reconnecting && s1.status == "active" then
            match get_current_question s1 elapsed with
            | some qd => (.sent (base ++ [.personal (.questionMsg qd)]), s1)
            | none => (.sent base, s1)
          else (.sent base, s1)

/-- Initialize every participant's cursor to 0 (handle_start_quiz loop). -/
def set_cursors_zero (s : GameState) : GameState :=
  s.participants.foldl (fun acc pr => set_participant_question_index acc pr.1 0) s

/-- handle_start_quiz (websocket.py lines 196-262).  `payload` models the
optional message payload: `none` for a falsy payload, otherwise the
optional `per_question_time_limit` entry. -/
def handle_start_quiz (s : GameState) (user : String) (payload : Option (Option Int))
    (now : String) : HandlerResult × GameState :=
  if !is_host s user then
    (.sent [.personal (.errorMsg "Only host can start the quiz")], s)
  else
    let s1 :=
      match payload with
      | none => s
      | some v => { s with per_question_time_limit := some (v.getD 30) }
    if (start_session s1 user).1 = false then
      (.sent [.personal (.errorMsg "Failed to start session")], (start_session s1 user).2)
    else
      let s2 := (start_session s1 user).2
      let s3 := set_cursors_zero s2
      let s4 := start_question_timer s3 now
      match get_question_by_index s4 0 with
      | .error e => (.raised e, s4)
      | .ok none => (.sent [.personal (.errorMsg "No questions available")], s4)
      | .ok (some qd) =>
          let limit := s4.per_question_time_limit.getD 30
          (.sent [.broadcast (.quiz_started limit), .broadcast (.questionMsg qd)], s4)

/-- handle_submit_answer (websocket.py lines 266-306) for a non-null
answer: run submit_answer, reply `answer_result`, broadcast the fresh
leaderboard. -/
def handle_submit_answer (s : GameState) (user : String) (answer : AnswerValue)
    (timestamp : ℚ) : HandlerResult × GameState :=
  match submit_answer s user answer timestamp with
  | (.exn e, s1) => (.raised e, s1)
  | (out, s1) =>
      (.sent [.personal (.answer_result out),
              .broadcast (.leaderboard_update (get_leaderboard s1))], s1)

/-- The method names the `GameController` class in game_controller.py
actually defines. -/
def gameControllerMethods : List String :=
  ["get_current_question", "submit_answer", "advance_question",
   "start_question_timer", "check_all_answered", "get_answer_distribution",
   "calculate_accuracy", "get_participant_question_index",
   "set_participant_question_index", "get_total_questions",
   "get_question_by_index"]

/-- Python attribute lookup on the GameController instance: AttributeError
when the class defines no such method. -/
def getattrGameController (name : String) : Except String String :=
  if gameControllerMethods.contains name then .ok name
  else .error ("AttributeError: GameController object has no attribute " ++ name)

/-- handle_next_question (websocket.py lines 309-331): after the host
check it calls `game_controller.next_question(session_code)`.  The `.ok`
branch below is unreachable — `GameController` defines no `next_question`
method, so the attribute lookup raises and the dispatch loop swallows the
exception. -/
def handle_next_question (s : GameState) (user : String) :
    HandlerResult × GameState :=
  if !is_host s user then
    (.sent [.personal (.errorMsg "Only host can control questions")], s)
  else
    match getattrGameController "next_question" with
    | .error e => (.raised e, s)
    | .ok m => (.raised ("unreachable: no implementation of " ++ m), s)

/-- handle_request_next_question (websocket.py lines 334-393): completion
when the participant's cursor is at or past `total - 1`; otherwise bump
the cursor and send the next question, falling back to `quiz_completed`
when retrieval returns nothing. -/
def handle_request_next_question (s : GameState) (user : String) :
    HandlerResult × GameState :=
  let c := get_participant_question_index s user
  let total := get_total_questions s
  if total - 1 ≤ c then
    (.sent [.personal (.quiz_completed (get_final_results s))], s)
  else
    let next := c + 1
    let s1 := set_participant_question_index s user next
    match get_question_by_index s1 next with
    | .error e => (.raised e, s1)
    | .ok (some qd) => (.sent [.personal (.questionMsg qd)], s1)
    | .ok none => (.sent [.personal (.quiz_completed (get_final_results s1))], s1)

/-- handle_end_quiz (websocket.py lines 396-420). -/
def handle_end_quiz (s : GameState) (user : String) :
    HandlerResult × GameState :=
  if !is_host s user then
    (.sent [.personal (.errorMsg "Only host can end the quiz")], s)
  else
    let s1 := end_session s
    (.sent [.broadcast (.quiz_ended (get_final_results s1))], s1)

/-- Parameter names `SessionManager.create_session` declares (after
`self`), from session_manager.py line 18. -/
def createSessionParams : List String :=
  ["quiz_id", "host_id", "mode"]

/-- Keyword-argument names the `create_live_session` route passes to
`create_session` (live_multiplayer.py lines 42-47). -/
def createSessionCallKwargs : List String :=
  ["quiz_id", "host_id", "mode", "per_question_time_limit"]

/-- Python call binding for keyword arguments: every keyword must name a
declared parameter, else the call raises TypeError. -/
def kwargsBindOk (params kwargs : List String) : Bool :=
  kwargs.all (fun k => params.contains k)

/-- Responses of the POST /multiplayer/create-session route. -/
inductive CreateSessionHttp : Type
  | ok200 (success : Bool) (session_code : String) (message : String)
  | httpError (status : Nat) (detail : String)
deriving Repr, DecidableEq

/-- create_live_session (live_multiplayer.py lines 29-61): 404 for a
missing quiz; otherwise the keyword call into
`SessionManager.create_session` must bind, and any raised exception is
mapped to a 500 by the blanket handler. -/
def create_live_session (quizExists : Bool) (freshCode : String) :
    CreateSessionHttp :=
  if quizExists then
    if kwargsBindOk createSessionParams createSessionCallKwargs then
      .ok200 true freshCode
        ("Live session created successfully. Session code: " ++ freshCode)
    else
      .httpError 500
        "Error creating live session: create_session() got an unexpected keyword argument"
  else .httpError 404 "Quiz not found"

/-- Every state-mutating operation of the session runtime: the store and
controller primitives plus the websocket handlers built from them. -/
inductive Step : GameState → GameState → Prop
  | add (now u un : String) (s : GameState) : Step s (add_participant s now u un).2
  | remove (u : String) (s : GameState) : Step s (remove_participant s u)
  | start (hid : String) (s : GameState) : Step s (start_session s hid).2
  | finish (s : GameState) : Step s (end_session s)
  | advance (now : String) (s : GameState) : Step s (advance_question s now)
  | timer (now : String) (s : GameState) : Step s (start_question_timer s now)
  | setCursor (u : String) (i : Int) (s : GameState) :
      Step s (set_participant_question_index s u i)
  | setLimit (t : Option Int) (s : GameState) :
      Step s { s with per_question_time_limit := t }
  | submit (u : String) (a : AnswerValue) (ts : ℚ) (s : GameState) :
      Step s (submit_answer s u a ts).2
  | join (now u un : String) (e : Option ℚ) (s : GameState) :
      Step s (handle_join s now u un e).2
  | startQuiz (u : String) (p : Option (Option Int)) (now : String) (s : GameState) :
      Step s (handle_start_quiz s u p now).2
  | reqNext (u : String) (s : GameState) :
      Step s (handle_request_next_question s u).2
  | nextQ (u : String) (s : GameState) : Step s (handle_next_question s u).2
  | endQuiz (u : String) (s : GameState) : Step s (handle_end_quiz s u).2
  | submitMsg (u : String) (a : AnswerValue) (ts : ℚ) (s : GameState) :
      Step s (handle_submit_answer s u a ts).2

/-- A session state reachable from creation through any operation
sequence. -/
inductive Reachable : GameState → Prop
  | init (code qid host mode ca ea : String) (qs : List (String × QuizDoc))
      (s : GameState) (h : create_session code qid host mode ca ea qs = some s) :
      Reachable s
  | step {s s' : GameState} (hr : Reachable s) (hs : Step s s') : Reachable s'

/-- A two-question singleMcq quiz (the shape of scenario S2). -/
def demoQuiz : QuizDoc :=
  { title := "Demo"
    questions :=
      [{ questionText := some "Q0?", questionField := none,
         qtype := some "singleMcq", qid := none, options := ["a", "b"],
         correctAnswerIndex := some 0, correctAnswerIndices := none,
         correctMatches := none },
       { questionText := some "Q1?", questionField := none,
         qtype := some "singleMcq", qid := none, options := ["a", "b"],
         correctAnswerIndex := some 1, correctAnswerIndices := none,
         correctMatches := none }] }

/-- A participant with no history. -/
def freshParticipant (uid un : String) : Participant :=
  { user_id := uid, username := un, joined_at := "t0", connected := true,
    score := 0, answers := [] }

/-- An active demo session on demoQuiz with one participant. -/
def demoState : GameState :=
  { session_code := "ABC123", quiz_id := some "q", host_id := "H",
    status := "active", mode := "live", current_question_index := 0,
    total_questions := 2, per_question_time_limit := none,
    question_start_time := none, created_at := "t0", expires_at := "t1",
    participants := [("u1", freshParticipant "u1" "P")], cursors := [],
    quizzes := [("q", demoQuiz)] }

namespace Dict

theorem findKeyCons {α : Type} (a : String × α) (t : List (String × α)) (k : String) :
    List.find? (fun p => p.1 == k) (a :: t) =
      if (a.1 == k) = true then some a else List.find? (fun p => p.1 == k) t := by
  by_cases h : (a.1 == k) = true
  · rw [if_pos h]
    simp only [List.find?_cons]
    simp [h]
  · rw [if_neg h]
    have h' : (a.1 == k) = false := by simpa using h
    simp only [List.find?_cons]
    simp [h']

theorem find_upd_self {α : Type} (k : String) (v : α) :
    ∀ m : List (String × α),
      List.find? (fun p => p.1 == k)
          (m.map (fun p => if p.1 == k then (k, v) else p)) =
        if m.any (fun p => p.1 == k) then some (k, v) else none
  | [] => by simp
  | a :: t => by
      by_cases ha : (a.1 == k) = true
      · simp only [List.map_cons, if_pos ha, findKeyCons]
        simp [List.any_cons, ha]
      · simp only [List.map_cons, if_neg ha, findKeyCons]
        have ha' : (a.1 == k) = false := by simpa using ha
        rw [find_upd_self k v t, List.any_cons, ha', Bool.false_or]

theorem find_append_single {α : Type} (k : String) (v : α) :
    ∀ m : List (String × α),
      m.any (fun p => p.1 == k) = false →
      List.find? (fun p => p.1 == k) (m ++ [(k, v)]) = some (k, v)
  | [], _ => by simp
  | a :: t, h => by
      rw [List.any_cons] at h
      rcases Bool.or_eq_false_iff.mp h with ⟨h1, h2⟩
      rw [List.cons_append, findKeyCons, if_neg (by simp [h1])]
      exact find_append_single k v t h2

theorem get_set_self {α : Type} (m : List (String × α)) (k : String) (v : α) :
    dictGet (dictSet m k v) k = some v := by
  unfold dictGet dictSet
  by_cases h : m.any (fun p => p.1 == k)
  · rw [if_pos h, find_upd_self, if_pos h]
    rfl
  · rw [if_neg h, find_append_single k v m (Bool.eq_false_iff.mpr h)]
    rfl

theorem find_upd_ne {α : Type} (k k' : String) (v : α) (hkk : (k == k') = false) :
    ∀ m : List (String × α),
      List.find? (fun p => p.1 == k')
          (m.map (fun p => if p.1 == k then (k, v) else p)) =
        List.find? (fun p => p.1 == k') m
  | [] => by simp
  | a :: t => by
      by_cases ha : (a.1 == k) = true
      · have hak : a.1 = k := by simpa using ha
        simp only [List.map_cons, if_pos ha, findKeyCons]
        rw [if_neg (by simp [hkk]), if_neg (by simp [hak, hkk]), find_upd_ne k k' v hkk t]
      · simp only [List.map_cons, if_neg ha, findKeyCons]
        by_cases ha' : (a.1 == k') = true
        · rw [if_pos ha', if_pos ha']
        · rw [if_neg ha', if_neg ha', find_upd_ne k k' v hkk t]

theorem find_append_ne {α : Type} (k k' : String) (v : α) (hkk : (k == k') = false) :
    ∀ m : List (String × α),
      List.find? (fun p => p.1 == k') (m ++ [(k, v)]) =
        List.find? (fun p => p.1 == k') m
  | [] => by simp [hkk]
  | a :: t => by
      rw [List.cons_append, findKeyCons, findKeyCons]
      by_cases ha' : (a.1 == k') = true
      · rw [if_pos ha', if_pos ha']
      · rw [if_neg ha', if_neg ha', find_append_ne k k' v hkk t]

theorem get_set_ne {α : Type} (m : List (String × α)) (k k' : String) (v : α)
    (h : k' ≠ k) : dictGet (dictSet m k v) k' = dictGet m k' := by
  have hkk : (k == k') = false := by simpa using Ne.symm h
  unfold dictGet dictSet
  by_cases hc : m.any (fun p => p.1 == k)
  · rw [if_pos hc, find_upd_ne k k' v hkk]
  · rw [if_neg hc, find_append_ne k k' v hkk]

theorem mem_set {α : Type} {m : List (String × α)} {k : String} {v : α}
    {pr : String × α} (h : pr ∈ dictSet m k v) : pr = (k, v) ∨ pr ∈ m := by
  unfold dictSet at h
  by_cases hc : m.any (fun p => p.1 == k)
  · rw [if_pos hc] at h
    rcases List.mem_map.mp h with ⟨a, ha, hEq⟩
    by_cases hk : (a.1 == k) = true
    · rw [if_pos hk] at hEq
      exact Or.inl hEq.symm
    · rw [if_neg hk] at hEq
      exact Or.inr (hEq ▸ ha)
  · rw [if_neg hc] at h
    rcases List.mem_append.mp h with h | h
    · exact Or.inr h
    · exact Or.inl (List.mem_singleton.mp h)

theorem get_some_mem {α : Type} {m : List (String × α)} {k : String} {v : α} :
    dictGet m k = some v → (k, v) ∈ m := by
  induction m with
  | nil => intro h; simp [dictGet] at h
  | cons a t ih =>
      intro h
      unfold dictGet at h
      rw [findKeyCons] at h
      by_cases ha : (a.1 == k) = true
      · rw [if_pos ha] at h
        obtain ⟨x, y⟩ := a
        have hak : x = k := by simpa using ha
        have hv : y = v := by simpa using h
        subst hak
        subst hv
        exact List.mem_cons_self _ _
      · rw [if_neg ha] at h
        exact List.mem_cons_of_mem _ (ih h)

end Dict

/-- The C7 invariant: the host id is never a participants key. -/
def hostFree (s : GameState) : Prop :=
  ∀ pr ∈ s.participants, pr.1 ≠ s.host_id

/-- The C8 invariant: every score is the sum of that participant's
recorded `points_earned`. -/
def scoreConsistent (s : GameState) : Prop :=
  ∀ pr ∈ s.participants,
    pr.2.score = (pr.2.answers.map (fun a => a.points_earned)).sum

/-- The AnswerRecord submit_answer appends on success. -/
def submittedRecord (s : GameState) (u : String) (a : AnswerValue) (ts : ℚ)
    (isc : Bool) : AnswerRecord :=
  { question_index := get_participant_question_index s u, answer := a,
    timestamp := ts, is_correct := isc, points_earned := computePoints isc ts }

/-- The participant as updated by a successful submit_answer. -/
def submittedParticipant (p : Participant) (r : AnswerRecord) : Participant :=
  { p with answers := p.answers ++ [r], score := p.score + r.points_earned }

/-- The state as updated by a successful submit_answer. -/
def submittedState (s : GameState) (u : String) (p : Participant)
    (r : AnswerRecord) : GameState :=
  { s with participants := dictSet s.participants u (submittedParticipant p r) }

/-- Structural description of submit_answer's state effect: either nothing
changes, or exactly one existing participant gets one appended record and
its points added to the score. -/
theorem submit_answer_cases (s : GameState) (u : String) (a : AnswerValue) (ts : ℚ) :
    (submit_answer s u a ts).2 = s ∨
    ∃ (p : Participant) (isc : Bool),
      dictGet s.participants u = some p ∧
      (p.answers.any (fun r => r.question_index == get_participant_question_index s u))
        = false ∧
      (submit_answer s u a ts).2 =
        submittedState s u p (submittedRecord s u a ts isc) := by
  unfold submit_answer
  dsimp only
  repeat' split
  all_goals try exact Or.inl rfl
  rename_i isc hv xp p hp hd
  exact Or.inr ⟨p, isc, hp, Bool.eq_false_iff.mpr hd, rfl⟩

/-- add_participant either rejects (host) or updates exactly the key `u`
(with preserved score/answers on reconnect, zeroes for a new user). -/
theorem add_participant_effect (s : GameState) (now u un : String) :
    (add_participant s now u un).2 = s ∨
    (u ≠ s.host_id ∧ ∃ (p' : Participant),
      (add_participant s now u un).2 =
        { s with participants := dictSet s.participants u p' } ∧
      ((∃ p, dictGet s.participants u = some p ∧ p'.score = p.score ∧
          p'.answers = p.answers) ∨
        (dictGet s.participants u = none ∧ p'.score = 0 ∧ p'.answers = []))) := by
  unfold add_participant
  dsimp only
  by_cases hu : (u == s.host_id) = true
  · rw [if_pos hu]
    exact Or.inl rfl
  · rw [if_neg hu]
    have hu' : u ≠ s.host_id := by simpa using hu
    cases hp : dictGet s.participants u with
    | some p => exact Or.inr ⟨hu', _, rfl, Or.inl ⟨p, rfl, rfl, rfl⟩⟩
    | none => exact Or.inr ⟨hu', _, rfl, Or.inr ⟨rfl, rfl, rfl⟩⟩

/-- hostFree is preserved by a participants write at a non-host key. -/
theorem hostFree_set (s : GameState) (u : String) (p' : Participant)
    (h : hostFree s) (hu : u ≠ s.host_id) :
    hostFree { s with participants := dictSet s.participants u p' } := by
  intro pr hpr
  rcases Dict.mem_set hpr with rfl | hpr'
  · exact hu
  · exact h pr hpr'

/-- scoreConsistent is preserved by writing a consistent participant. -/
theorem scoreConsistent_set (s : GameState) (u : String) (p' : Participant)
    (h : scoreConsistent s)
    (hp' : p'.score = (p'.answers.map (fun a => a.points_earned)).sum) :
    scoreConsistent { s with participants := dictSet s.participants u p' } := by
  intro pr hpr
  rcases Dict.mem_set hpr with rfl | hpr'
  · exact hp'
  · exact h pr hpr'

/-- The cursor-initialization fold leaves participants and host alone. -/
theorem foldl_setCursor_state :
    ∀ (l : List (String × Participant)) (acc : GameState),
      (l.foldl (fun a pr => set_participant_question_index a pr.1 0) acc).participants
          = acc.participants ∧
      (l.foldl (fun a pr => set_participant_question_index a pr.1 0) acc).host_id
          = acc.host_id
  | [], _ => ⟨rfl, rfl⟩
  | _ :: t, _ => foldl_setCursor_state t _

/-- handle_join either leaves the state alone or applies add_participant. -/
theorem handle_join_state (s : GameState) (now u un : String) (e : Option ℚ) :
    (handle_join s now u un e).2 = s ∨
    (handle_join s now u un e).2 = (add_participant s now u un).2 := by
  unfold handle_join
  dsimp only
  by_cases hh : is_host s u = true
  · rw [if_pos hh]
    exact Or.inl rfl
  · rw [if_neg hh]
    by_cases hw : (s.status != "waiting" && !(dictGet s.participants u).isSome) = true
    · rw [if_pos hw]
      exact Or.inl rfl
    · rw [if_neg hw]
      rcases hadd : add_participant s now u un with ⟨b, s1⟩
      cases b
      · exact Or.inr rfl
      · dsimp only
        repeat' split
        all_goals exact Or.inr rfl

/-- start_session keeps participants and the host id. -/
theorem start_session_fields (s : GameState) (hid : String) :
    (start_session s hid).2.participants = s.participants ∧
    (start_session s hid).2.host_id = s.host_id := by
  unfold start_session
  split <;> exact ⟨rfl, rfl⟩

/-- The timer-reset after cursor initialization keeps participants/host. -/
theorem timer_cursors_fields (s0 : GameState) (now : String) :
    (start_question_timer (set_cursors_zero s0) now).participants = s0.participants ∧
    (start_question_timer (set_cursors_zero s0) now).host_id = s0.host_id :=
  ⟨(foldl_setCursor_state _ _).1, (foldl_setCursor_state _ _).2⟩

/-- handle_start_quiz never touches participants or the host id. -/
theorem handle_start_quiz_state (s : GameState) (u : String)
    (p : Option (Option Int)) (now : String) :
    (handle_start_quiz s u p now).2.participants = s.participants ∧
    (handle_start_quiz s u p now).2.host_id = s.host_id := by
  unfold handle_start_quiz
  dsimp only
  by_cases hh : (!is_host s u) = true
  · rw [if_pos hh]
    exact ⟨rfl, rfl⟩
  · rw [if_neg hh]
    cases p with
    | none =>
        by_cases hb : ((start_session s u).1 = false)
        · rw [if_pos hb]
          exact start_session_fields s u
        · rw [if_neg hb]
          repeat' split
          all_goals
            exact ⟨(timer_cursors_fields _ now).1.trans (start_session_fields _ u).1,
                   (timer_cursors_fields _ now).2.trans (start_session_fields _ u).2⟩
    | some v =>
        by_cases hb :
            ((start_session { s with per_question_time_limit := some (v.getD 30) } u).1
              = false)
        · rw [if_pos hb]
          exact start_session_fields _ u
        · rw [if_neg hb]
          repeat' split
          all_goals
            exact ⟨(timer_cursors_fields _ now).1.trans (start_session_fields _ u).1,
                   (timer_cursors_fields _ now).2.trans (start_session_fields _ u).2⟩

/-- handle_request_next_question only moves the caller's cursor. -/
theorem handle_request_next_state (s : GameState) (u : String) :
    (handle_request_next_question s u).2.participants = s.participants ∧
    (handle_request_next_question s u).2.host_id = s.host_id := by
  unfold handle_request_next_question
  dsimp only
  repeat' split
  all_goals exact ⟨rfl, rfl⟩

/-- handle_next_question never changes the state at all. -/
theorem handle_next_question_state (s : GameState) (u : String) :
    (handle_next_question s u).2 = s := by
  unfold handle_next_question
  repeat' split
  all_goals rfl

/-- handle_end_quiz leaves the state alone or just sets the status. -/
theorem handle_end_quiz_state (s : GameState) (u : String) :
    (handle_end_quiz s u).2 = s ∨ (handle_end_quiz s u).2 = end_session s := by
  unfold handle_end_quiz
  split
  · exact Or.inl rfl
  · exact Or.inr rfl

/-- handle_submit_answer changes state exactly as submit_answer does. -/
theorem handle_submit_answer_state (s : GameState) (u : String)
    (a : AnswerValue) (ts : ℚ) :
    (handle_submit_answer s u a ts).2 = (submit_answer s u a ts).2 := by
  unfold handle_submit_answer
  rcases hsub : submit_answer s u a ts with ⟨out, s1⟩
  cases out <;> rfl

/-- hostFree is preserved by add_participant. -/
theorem hostFree_add (s : GameState) (now u un : String) (h : hostFree s) :
    hostFree (add_participant s now u un).2 := by
  rcases add_participant_effect s now u un with heq | ⟨hu, p', heq, _⟩
  · rw [heq]; exact h
  · rw [heq]; exact hostFree_set s u p' h hu

/-- hostFree is preserved by submit_answer. -/
theorem hostFree_submit (s : GameState) (u : String) (a : AnswerValue) (ts : ℚ)
    (h : hostFree s) : hostFree (submit_answer s u a ts).2 := by
  rcases submit_answer_cases s u a ts with heq | ⟨p, isc, hp, _, heq⟩
  · rw [heq]; exact h
  · rw [heq]
    exact hostFree_set s u _ h (h (u, p) (Dict.get_some_mem hp))

/-- scoreConsistent is preserved by add_participant. -/
theorem scoreConsistent_add (s : GameState) (now u un : String)
    (h : scoreConsistent s) : scoreConsistent (add_participant s now u un).2 := by
  rcases add_participant_effect s now u un with heq | ⟨_, p', heq, hres⟩
  · rw [heq]; exact h
  · rw [heq]
    refine scoreConsistent_set s u p' h ?_
    rcases hres with ⟨p, hp, hsc, hans⟩ | ⟨_, hsc, hans⟩
    · rw [hsc, hans]
      exact h (u, p) (Dict.get_some_mem hp)
    · rw [hsc, hans]
      rfl

/-- scoreConsistent is preserved by submit_answer. -/
theorem scoreConsistent_submit (s : GameState) (u : String) (a : AnswerValue)
    (ts : ℚ) (h : scoreConsistent s) : scoreConsistent (submit_answer s u a ts).2 := by
  rcases submit_answer_cases s u a ts with heq | ⟨p, isc, hp, _, heq⟩
  · rw [heq]; exact h
  · rw [heq]
    refine scoreConsistent_set s u _ h ?_
    have hpc := h (u, p) (Dict.get_some_mem hp)
    show p.score + (submittedRecord s u a ts isc).points_earned =
      ((p.answers ++ [submittedRecord s u a ts isc]).map
        (fun r => r.points_earned)).sum
    rw [List.map_append, List.sum_append, hpc]
    simp

/-- hostFree is preserved by every runtime operation. -/
theorem hostFree_step {s s' : GameState} (hs : Step s s') (h : hostFree s) :
    hostFree s' := by
  cases hs with
  | add now u un => exact hostFree_add s now u un h
  | remove u =>
      unfold remove_participant
      cases hp : dictGet s.participants u with
      | none => exact h
      | some p => exact hostFree_set s u _ h (h (u, p) (Dict.get_some_mem hp))
  | start hid =>
      unfold start_session
      split
      · exact h
      · exact h
  | finish => exact h
  | advance now => exact h
  | timer now => exact h
  | setCursor u i => exact h
  | setLimit t => exact h
  | submit u a ts => exact hostFree_submit s u a ts h
  | join now u un e =>
      rcases handle_join_state s now u un e with heq | heq
      · rw [heq]; exact h
      · rw [heq]; exact hostFree_add s now u un h
  | startQuiz u p now =>
      intro pr hpr
      rw [(handle_start_quiz_state s u p now).1] at hpr
      rw [(handle_start_quiz_state s u p now).2]
      exact h pr hpr
  | reqNext u =>
      intro pr hpr
      rw [(handle_request_next_state s u).1] at hpr
      rw [(handle_request_next_state s u).2]
      exact h pr hpr
  | nextQ u =>
      rw [handle_next_question_state s u]
      exact h
  | endQuiz u =>
      rcases handle_end_quiz_state s u with heq | heq
      · rw [heq]; exact h
      · rw [heq]; exact h
  | submitMsg u a ts =>
      rw [handle_submit_answer_state s u a ts]
      exact hostFree_submit s u a ts h

/-- scoreConsistent is preserved by every runtime operation. -/
theorem scoreConsistent_step {s s' : GameState} (hs : Step s s')
    (h : scoreConsistent s) : scoreConsistent s' := by
  cases hs with
  | add now u un => exact scoreConsistent_add s now u un h
  | remove u =>
      unfold remove_participant
      cases hp : dictGet s.participants u with
      | none => exact h
      | some p =>
          refine scoreConsistent_set s u _ h ?_
          exact h (u, p) (Dict.get_some_mem hp)
  | start hid =>
      unfold start_session
      split
      · exact h
      · exact h
  | finish => exact h
  | advance now => exact h
  | timer now => exact h
  | setCursor u i => exact h
  | setLimit t => exact h
  | submit u a ts => exact scoreConsistent_submit s u a ts h
  | join now u un e =>
      rcases handle_join_state s now u un e with heq | heq
      · rw [heq]; exact h
      · rw [heq]; exact scoreConsistent_add s now u un h
  | startQuiz u p now =>
      intro pr hpr
      rw [(handle_start_quiz_state s u p now).1] at hpr
      exact h pr hpr
  | reqNext u =>
      intro pr hpr
      rw [(handle_request_next_state s u).1] at hpr
      exact h pr hpr
  | nextQ u =>
      rw [handle_next_question_state s u]
      exact h
  | endQuiz u =>
      rcases handle_end_quiz_state s u with heq | heq
      · rw [heq]; exact h
      · rw [heq]; exact h
  | submitMsg u a ts =>
      rw [handle_submit_answer_state s u a ts]
      exact scoreConsistent_submit s u a ts h

/-- A freshly created session satisfies both invariants (participants
empty). -/
theorem create_session_invariants (code qid host mode ca ea : String)
    (qs : List (String × QuizDoc)) (s : GameState)
    (h : create_session code qid host mode ca ea qs = some s) :
    hostFree s ∧ scoreConsistent s := by
  unfold create_session at h
  cases hq : dictGet qs qid with
  | none => rw [hq] at h; exact absurd h (by simp)
  | some quiz =>
      rw [hq] at h
      have hs : s.participants = [] := by
        cases Option.some.injEq .. ▸ h.symm
        rfl
      constructor
      · intro pr hpr
        rw [hs] at hpr
        exact absurd hpr (List.not_mem_nil pr)
      · intro pr hpr
        rw [hs] at hpr
        exact absurd hpr (List.not_mem_nil pr)

/-- hostFree holds in every reachable state. -/
theorem hostFree_reachable {s : GameState} (hr : Reachable s) : hostFree s := by
  induction hr with
  | init code qid host mode ca ea qs s h =>
      exact (create_session_invariants code qid host mode ca ea qs s h).1
  | step hr hs ih => exact hostFree_step hs ih

/-- scoreConsistent holds in every reachable state. -/
theorem scoreConsistent_reachable {s : GameState} (hr : Reachable s) :
    scoreConsistent s := by
  induction hr with
  | init code qid host mode ca ea qs s h =>
      exact (create_session_invariants code qid host mode ca ea qs s h).2
  | step hr hs ih => exact scoreConsistent_step hs ih

/-- The quiz store holding only demoQuiz. -/
def demoQuizStore : List (String × QuizDoc) := [("q", demoQuiz)]

/-- The session state create_session builds on demoQuiz. -/
def demoInitState : GameState :=
  { session_code := "ABC123", quiz_id := some "q", host_id := "H",
    status := "waiting", mode := "live", current_question_index := 0,
    total_questions := 2, per_question_time_limit := none,
    question_start_time := none, created_at := "t0", expires_at := "t1",
    participants := [], cursors := [], quizzes := demoQuizStore }

theorem demoInitState_reachable : Reachable demoInitState :=
  Reachable.init "ABC123" "q" "H" "live" "t0" "t1" demoQuizStore
    demoInitState (by decide)

/-- C7: in every reachable session state the host id is not a participants
key; a store-level add_participant of the host is rejected without a state
change; and a host join is answered with the session_state echo while the
state (hence the participants map) is unchanged. -/
theorem c7_host_never_participant (s : GameState) (hr : Reachable s)
    (now un : String) (e : Option ℚ) :
    (∀ pr ∈ s.participants, pr.1 ≠ s.host_id) ∧
    add_participant s now s.host_id un = (false, s) ∧
    (handle_join s now s.host_id un e).1 =
      .sent [.personal (.session_state s.status
        (s.participants.map (fun pr => pr.2)) s.participants.length)] ∧
    (handle_join s now s.host_id un e).2 = s := by
  refine ⟨hostFree_reachable hr, ?_, ?_, ?_⟩
  · unfold add_participant
    rw [if_pos (by simp : (s.host_id == s.host_id) = true)]
  · unfold handle_join
    rw [if_pos (by simp [is_host] : is_host s s.host_id = true)]
  · unfold handle_join
    rw [if_pos (by simp [is_host] : is_host s s.host_id = true)]

theorem c7_host_never_participant_witness :
    add_participant demoInitState "t2" demoInitState.host_id "Hname" =
      (false, demoInitState) :=
  (c7_host_never_participant demoInitState demoInitState_reachable
    "t2" "Hname" none).2.1

/-- C8: in every reachable session state every participant's score equals
the sum of its recorded points_earned; a new participant is stored with
score 0 and empty answers; and submit_answer either leaves the state
unchanged or stores exactly the old participant with the one appended
record and its points added to the score. -/
theorem c8_score_is_points_sum (s : GameState) (hr : Reachable s) :
    (∀ pr ∈ s.participants,
      pr.2.score = (pr.2.answers.map (fun a => a.points_earned)).sum) ∧
    (∀ now u un, u ≠ s.host_id → dictGet s.participants u = none →
      dictGet (add_participant s now u un).2.participants u =
        some { user_id := u, username := un, joined_at := now,
               connected := true, score := 0, answers := [] }) ∧
    (∀ u a ts, (submit_answer s u a ts).2 = s ∨
      ∃ (p : Participant) (isc : Bool),
        dictGet s.participants u = some p ∧
        dictGet (submit_answer s u a ts).2.participants u =
          some (submittedParticipant p (submittedRecord s u a ts isc))) := by
  refine ⟨scoreConsistent_reachable hr, ?_, ?_⟩
  · intro now u un hu hnone
    unfold add_participant
    rw [if_neg (by simpa using hu), hnone]
    exact Dict.get_set_self ..
  · intro u a ts
    rcases submit_answer_cases s u a ts with heq | ⟨p, isc, hp, _, heq⟩
    · exact Or.inl heq
    · refine Or.inr ⟨p, isc, hp, ?_⟩
      rw [heq]
      exact Dict.get_set_self ..

theorem c8_score_is_points_sum_witness :
    dictGet (add_participant demoInitState "t2" "u1" "P").2.participants "u1" =
      some { user_id := "u1", username := "P", joined_at := "t2",
             connected := true, score := 0, answers := [] } :=
  (c8_score_is_points_sum demoInitState demoInitState_reachable).2.1 "t2" "u1" "P"
    (by decide) (by decide)

/-- C9: answer validation and the recorded question_index come from the
participant's own cursor, never from the session's current_question_index:
submit_answer commutes with any change of current_question_index (same
reply, same participant/cursor effect), the derived per-participant index
ignores current_question_index, the host-side advance_question touches
neither cursors nor participants, and a successful submit stores the
record at the participant's own index. -/
theorem c9_per_participant_cursor (s : GameState) (j : Int) (u : String)
    (a : AnswerValue) (ts : ℚ) (now : String) :
    (submit_answer { s with current_question_index := j } u a ts =
      ((submit_answer s u a ts).1,
       { (submit_answer s u a ts).2 with current_question_index := j })) ∧
    (get_participant_question_index { s with current_question_index := j } u =
      get_participant_question_index s u) ∧
    (advance_question s now).cursors = s.cursors ∧
    (advance_question s now).participants = s.participants ∧
    ((submit_answer s u a ts).2 = s ∨
      ∃ (p : Participant) (isc : Bool),
        dictGet s.participants u = some p ∧
        dictGet (submit_answer s u a ts).2.participants u =
          some (submittedParticipant p (submittedRecord s u a ts isc)) ∧
        (submittedRecord s u a ts isc).question_index =
          get_participant_question_index s u) := by
  refine ⟨?_, rfl, rfl, rfl, ?_⟩
  · have hg : get_participant_question_index
        { s with current_question_index := j } u =
        get_participant_question_index s u := rfl
    unfold submit_answer
    rw [hg]
    dsimp only
    repeat' split
    all_goals rfl
  · rcases submit_answer_cases s u a ts with heq | ⟨p, isc, hp, _, heq⟩
    · exact Or.inl heq
    · refine Or.inr ⟨p, isc, hp, ?_, rfl⟩
      rw [heq]
      exact Dict.get_set_self ..

theorem c9_per_participant_cursor_witness :
    (advance_question demoState "t9").cursors = demoState.cursors :=
  (c9_per_participant_cursor demoState 5 "u1" (.int 0) 3 "t9").2.2.1

/-- C10: add_participant for a user already in the participants map sets
connected to true and overwrites the username, while the rest of that
participant (user_id, joined_at, score, answers), every other entry of the
map and the cursor store stay unchanged. -/
theorem c10_reconnect_frame (s : GameState) (now u un : String) (p : Participant)
    (hu : u ≠ s.host_id) (hp : dictGet s.participants u = some p) :
    (add_participant s now u un).1 = true ∧
    dictGet (add_participant s now u un).2.participants u =
      some { p with connected := true, username := un } ∧
    (∀ k, k ≠ u → dictGet (add_participant s now u un).2.participants k =
      dictGet s.participants k) ∧
    (add_participant s now u un).2.cursors = s.cursors := by
  unfold add_participant
  rw [if_neg (by simpa using hu), hp]
  exact ⟨rfl, Dict.get_set_self .., fun k hk => Dict.get_set_ne _ _ _ _ hk, rfl⟩

theorem c10_reconnect_frame_witness :
    dictGet (add_participant demoState "t3" "u1" "P2").2.participants "u1" =
      some { freshParticipant "u1" "P" with connected := true, username := "P2" } :=
  (c10_reconnect_frame demoState "t3" "u1" "P2" (freshParticipant "u1" "P")
    (by decide) (by decide)).2.1

/-- Inversion of a successful submit_answer: all checks passed, the reply
fields are determined, and the state took the one-record update. -/
theorem submit_answer_ok_inv (s : GameState) (u : String) (a : AnswerValue)
    (ts : ℚ) (ic : Bool) (pts : Int) (ca : CorrectAnswerResp) (ns : Int)
    (qt : String) :
    (submit_answer s u a ts).1 = .ok ic pts ca ns qt →
    ∃ (qid : String) (quiz : QuizDoc) (q : Question) (p : Participant),
      s.quiz_id = some qid ∧
      dictGet s.quizzes qid = some quiz ∧
      ¬((quiz.questions.length : Int) ≤ get_participant_question_index s u) ∧
      pyGet? quiz.questions (get_participant_question_index s u) = some q ∧
      qt = q.qtype.getD "singleMcq" ∧
      validateAnswer qt q a = .vok ic ∧
      dictGet s.participants u = some p ∧
      (p.answers.any (fun r =>
        r.question_index == get_participant_question_index s u)) = false ∧
      pts = computePoints ic ts ∧
      ns = p.score + computePoints ic ts ∧
      (submit_answer s u a ts).2 =
        submittedState s u p (submittedRecord s u a ts ic) := by
  unfold submit_answer
  dsimp only
  repeat' split
  all_goals intro h
  all_goals try (exfalso; simp at h; done)
  rename_i xq0 qid hq xz quiz hz hlen xq q hget xv isc hv xp p hp hd
  simp at h
  obtain ⟨h1, h2, h3, h4, h5⟩ := h
  subst h1
  subst h5
  exact ⟨qid, quiz, q, p, hq, hz, hlen, hget, rfl, hv,
    hp, Bool.eq_false_iff.mpr hd, h2.symm, h4.symm, rfl⟩

theorem ratFloor_eq (q : ℚ) : q.floor = ⌊q⌋ := rfl

/-- Unfolding of the correct-answer scoring for a truthy timestamp. -/
theorem computePoints_true (ts : ℚ) (h : ts ≠ 0) :
    computePoints true ts = 1000 + ⌊max 0 ((1 - min ts 30 / 30) * 500)⌋ := by
  have hb : (ts == 0) = false := beq_eq_false_iff_ne.mpr h
  have hc : ((QUESTION_TIME_SECONDS : Int) : ℚ) = 30 := by
    norm_num [QUESTION_TIME_SECONDS]
  simp only [computePoints, hb, Bool.false_eq_true, if_false, if_true, hc,
    ratFloor_eq]

/-- C1 (amended): for every submitted answer judged correct the returned
points equal computePoints, i.e. 1000 plus a bonus computed from the
global QUESTION_TIME_SECONDS (not a per-session limit) only when the
timestamp is non-zero: timestamp 0 gives exactly 1000 (no bonus),
timestamps at or beyond the limit give bonus 0 while still correct,
timestamps in (0, limit] give 1000 + floor((1 - ts/30)*500) bounded by
[1000, 1500], and negative timestamps are not clamped, giving at least
1500; incorrect answers get 0. -/
theorem c1_points_time_bonus (s : GameState) (u : String) (a : AnswerValue)
    (ts : ℚ) (ic : Bool) (pts : Int) (ca : CorrectAnswerResp) (ns : Int)
    (qt : String)
    (h : (submit_answer s u a ts).1 = .ok ic pts ca ns qt) :
    pts = computePoints ic ts ∧
    (ic = true → ts = 0 → pts = 1000) ∧
    (ic = true → (30 : ℚ) ≤ ts → pts = 1000) ∧
    (ic = true → 0 < ts → ts ≤ 30 →
      pts = 1000 + ⌊(1 - ts / 30) * 500⌋ ∧ 1000 ≤ pts ∧ pts ≤ 1500) ∧
    (ic = true → ts < 0 → 1500 ≤ pts) ∧
    (ic = false → pts = 0) := by
  obtain ⟨qid, quiz, q, p, _, _, _, _, _, _, _, _, hpts, _, _⟩ :=
    submit_answer_ok_inv s u a ts ic pts ca ns qt h
  refine ⟨hpts, ?_, ?_, ?_, ?_, ?_⟩
  · rintro rfl rfl
    rw [hpts]
    decide
  · rintro rfl hts
    rw [hpts, computePoints_true ts (by intro h0; rw [h0] at hts; norm_num at hts)]
    rw [min_eq_right hts]
    norm_num
  · rintro rfl h0 h30
    rw [hpts, computePoints_true ts (ne_of_gt h0)]
    rw [min_eq_left h30]
    have hdiv : ts / 30 ≤ 1 := (div_le_one (by norm_num : (0:ℚ) < 30)).mpr h30
    have hnn : (0:ℚ) ≤ (1 - ts / 30) * 500 := by nlinarith
    rw [max_eq_right hnn]
    refine ⟨rfl, ?_, ?_⟩
    · have hf : (0:ℤ) ≤ ⌊(1 - ts / 30) * 500⌋ := Int.floor_nonneg.mpr hnn
      linarith
    · have hdp : (0:ℚ) < ts / 30 := div_pos h0 (by norm_num)
      have hle : (1 - ts / 30) * 500 ≤ 500 := by nlinarith
      have hf : ⌊(1 - ts / 30) * 500⌋ ≤ (500:ℤ) := by
        have h5 : ((500:ℤ):ℚ) = 500 := by norm_num
        have := Int.floor_le_floor (α := ℚ) hle
        rwa [show ⌊(500:ℚ)⌋ = (500:ℤ) from by norm_num] at this
      linarith
  · rintro rfl hneg
    rw [hpts, computePoints_true ts (ne_of_lt hneg)]
    rw [min_eq_left (by linarith : ts ≤ (30:ℚ))]
    have hdp : ts / 30 < 0 := div_neg_of_neg_of_pos hneg (by norm_num)
    have hge : (500:ℚ) ≤ (1 - ts / 30) * 500 := by nlinarith
    rw [max_eq_right (by linarith)]
    have hf : (500:ℤ) ≤ ⌊(1 - ts / 30) * 500⌋ := Int.le_floor.mpr (by push_cast; linarith)
    linarith
  · rintro rfl
    rw [hpts]
    rfl

/-- C1 counterexample: a correct answer submitted with client_timestamp 0
returns 1000 points, while the claimed formula (with clamping and the
session limit L = 30) yields 1500; and a negative timestamp -30 yields
2000 points where the claimed formula caps at 1500. -/
theorem c1_points_time_bonus_counterexample :
    (submit_answer demoState "u1" (.int 0) 0).1 =
      .ok true 1000 (.strA "0") 1000 "singleMcq" ∧
    specPoints 30 0 = 1500 ∧
    (1000 : Int) ≠ specPoints 30 0 ∧
    computePoints true (-30) = 2000 ∧
    specPoints 30 (-30) = 1500 := by
  have hspec0 : specPoints 30 0 = 1500 := by
    unfold specPoints
    dsimp only
    rw [show min (max (0:ℚ) 0) 30 = 0 from by norm_num]
    rw [show ((1:ℚ) - 0 / 30) * 500 = 500 from by norm_num]
    rw [show max (0:ℚ) 500 = 500 from by norm_num]
    rw [ratFloor_eq, show ⌊(500:ℚ)⌋ = (500:ℤ) from by norm_num]
    norm_num
  refine ⟨by decide, hspec0, by rw [hspec0]; decide, ?_, ?_⟩
  · rw [computePoints_true (-30) (by norm_num)]
    rw [show min (-30:ℚ) 30 = -30 from by norm_num]
    rw [show ((1:ℚ) - -30 / 30) * 500 = 1000 from by norm_num]
    rw [show max (0:ℚ) 1000 = 1000 from by norm_num]
    rw [show ⌊(1000:ℚ)⌋ = (1000:ℤ) from by norm_num]
    norm_num
  · unfold specPoints
    dsimp only
    rw [show min (max (-30:ℚ) 0) 30 = 0 from by norm_num]
    rw [show ((1:ℚ) - 0 / 30) * 500 = 500 from by norm_num]
    rw [show max (0:ℚ) 500 = 500 from by norm_num]
    rw [ratFloor_eq, show ⌊(500:ℚ)⌋ = (500:ℤ) from by norm_num]
    norm_num


theorem c1_points_time_bonus_witness :
    (1000 : Int) = computePoints true 0 :=
  (c1_points_time_bonus demoState "u1" (.int 0) 0 true 1000 (.strA "0") 1000
    "singleMcq" (by decide)).1

/-- Whether Python validation of this answer shape avoids a TypeError for
the given question type (int() on a list or dict raises). -/
def answerShapeOk (question_type : String) (a : AnswerValue) : Bool :=
  if question_type == "singleMcq" || question_type == "trueFalse" then
    (pyInt? a).isSome
  else if question_type == "multiMcq" then
    (match a with | .dict _ => false | _ => true)
  else true

/-- If one answer validated to a verdict, any shape-compatible answer for
the same question also validates to a verdict (no config error, no
TypeError). -/
theorem validate_shape_vok (q : Question) (a a2 : AnswerValue) (qt : String)
    (b : Bool) (h : validateAnswer qt q a = .vok b)
    (hs : answerShapeOk qt a2 = true) :
    ∃ b2, validateAnswer qt q a2 = .vok b2 := by
  unfold validateAnswer at h ⊢
  unfold answerShapeOk at hs
  by_cases h1 : (qt == "singleMcq" || qt == "trueFalse") = true
  · rw [if_pos h1] at h ⊢
    rw [if_pos h1] at hs
    cases hc : q.correctAnswerIndex with
    | none => rw [hc] at h; exact absurd h (by simp)
    | some c =>
        cases hpi : pyInt? a2 with
        | none => rw [hpi] at hs; simp at hs
        | some n => exact ⟨_, rfl⟩
  · rw [if_neg h1] at h ⊢
    rw [if_neg h1] at hs
    by_cases h2 : (qt == "multiMcq") = true
    · rw [if_pos h2] at h ⊢
      rw [if_pos h2] at hs
      by_cases hemp : (q.correctAnswerIndices.getD []).isEmpty = true
      · rw [if_pos hemp] at h; exact absurd h (by simp)
      · rw [if_neg hemp]
        cases a2 with
        | int n => exact ⟨_, rfl⟩
        | list ns => exact ⟨_, rfl⟩
        | dict mm => simp at hs
    · rw [if_neg h2] at h ⊢
      by_cases h3 : (qt == "dragAndDrop") = true
      · rw [if_pos h3] at h ⊢
        by_cases hemp : (q.correctMatches.getD []).isEmpty = true
        · rw [if_pos hemp] at h; exact absurd h (by simp)
        · rw [if_neg hemp]
          cases a2 with
          | int n => exact ⟨_, rfl⟩
          | list ns => exact ⟨_, rfl⟩
          | dict mm => exact ⟨_, rfl⟩
      · rw [if_neg h3] at h
        exact absurd h (by simp)

/-- Appending a record to an answers list: the derived maximum index. -/
theorem maxAnswerIndex_append (xs : List AnswerRecord) (r : AnswerRecord) :
    maxAnswerIndex (xs ++ [r]) =
      some (match maxAnswerIndex xs with
            | none => r.question_index
            | some m => max m r.question_index) := by
  cases xs with
  | nil => rfl
  | cons a rest =>
      unfold maxAnswerIndex
      rw [List.cons_append]
      dsimp only
      rw [List.foldl_append]
      rfl

/-- The per-participant index is unchanged by the one-record update a
successful submit performs. -/
theorem gpqi_submitted (s : GameState) (u : String) (p : Participant)
    (hp : dictGet s.participants u = some p) (a : AnswerValue) (ts : ℚ)
    (isc : Bool) :
    get_participant_question_index
      (submittedState s u p (submittedRecord s u a ts isc)) u =
    get_participant_question_index s u := by
  have hcur : dictGet
      (submittedState s u p (submittedRecord s u a ts isc)).cursors u =
      dictGet s.cursors u := rfl
  have hpart : dictGet
      (submittedState s u p (submittedRecord s u a ts isc)).participants u =
      dictGet (dictSet s.participants u
        (submittedParticipant p (submittedRecord s u a ts isc))) u := rfl
  have hans : (submittedParticipant p (submittedRecord s u a ts isc)).answers =
      p.answers ++ [submittedRecord s u a ts isc] := rfl
  have hrq : (submittedRecord s u a ts isc).question_index =
      get_participant_question_index s u := rfl
  cases hc : dictGet s.cursors u with
  | some i =>
      have h1 : get_participant_question_index s u = i := by
        unfold get_participant_question_index
        rw [hc]
      have h2 : get_participant_question_index
          (submittedState s u p (submittedRecord s u a ts isc)) u = i := by
        unfold get_participant_question_index
        rw [hcur, hc]
      rw [h1, h2]
  | none =>
      cases hm : maxAnswerIndex p.answers with
      | none =>
          have h1 : get_participant_question_index s u = 0 := by
            unfold get_participant_question_index
            rw [hc]
            simp only [hp, hm]
          have h2 : get_participant_question_index
              (submittedState s u p (submittedRecord s u a ts isc)) u = 0 := by
            unfold get_participant_question_index
            rw [hcur, hc]
            simp only [hpart, Dict.get_set_self, hans, maxAnswerIndex_append, hm]
            rw [hrq, h1]
          rw [h1, h2]
      | some m =>
          have h1 : get_participant_question_index s u = m := by
            unfold get_participant_question_index
            rw [hc]
            simp only [hp, hm]
          have h2 : get_participant_question_index
              (submittedState s u p (submittedRecord s u a ts isc)) u = m := by
            unfold get_participant_question_index
            rw [hcur, hc]
            simp only [hpart, Dict.get_set_self, hans, maxAnswerIndex_append, hm]
            rw [hrq, h1]
            exact max_self m
          rw [h1, h2]

/-- Submitting into a state where the participant already answered their
current index: the state never changes, and any validated answer gets the
duplicate rejection. -/
theorem submit_answer_duplicate (s1 : GameState) (u : String) (a2 : AnswerValue)
    (ts2 : ℚ) (qid : String) (quiz : QuizDoc) (q : Question) (p1 : Participant)
    (hq : s1.quiz_id = some qid)
    (hz : dictGet s1.quizzes qid = some quiz)
    (hlen : ¬((quiz.questions.length : Int) ≤ get_participant_question_index s1 u))
    (hget : pyGet? quiz.questions (get_participant_question_index s1 u) = some q)
    (hp : dictGet s1.participants u = some p1)
    (hdup : (p1.answers.any (fun r =>
      r.question_index == get_participant_question_index s1 u)) = true) :
    ((submit_answer s1 u a2 ts2).2 = s1) ∧
    (∀ b, validateAnswer (q.qtype.getD "singleMcq") q a2 = .vok b →
      (submit_answer s1 u a2 ts2).1 = .err "Already answered") := by
  unfold submit_answer
  dsimp only
  simp only [hq, hz]
  rw [if_neg hlen]
  simp only [hget]
  cases hv : validateAnswer (q.qtype.getD "singleMcq") q a2 with
  | verr m => exact ⟨rfl, fun b hb => absurd hb (by simp)⟩
  | vexn m => exact ⟨rfl, fun b hb => absurd hb (by simp)⟩
  | vok b0 =>
      simp only [hp]
      rw [if_pos hdup]
      exact ⟨rfl, fun b hb => rfl⟩

/-- C4 (amended): after a successful submission, any second submission by
the same participant leaves the stored state entirely unchanged; when the
second answer has a shape the validator can process for that question
type, the reply is the structured error "Already answered".  (A
shape-mismatched second answer instead raises a TypeError swallowed by
the dispatch loop; the state is still unchanged.) -/
theorem c4_duplicate_answer (s : GameState) (u : String) (a : AnswerValue)
    (ts : ℚ) (ic : Bool) (pts : Int) (ca : CorrectAnswerResp) (ns : Int)
    (qt : String) (a2 : AnswerValue) (ts2 : ℚ)
    (h : (submit_answer s u a ts).1 = .ok ic pts ca ns qt) :
    ((submit_answer (submit_answer s u a ts).2 u a2 ts2).2 =
      (submit_answer s u a ts).2) ∧
    (answerShapeOk qt a2 = true →
      (submit_answer (submit_answer s u a ts).2 u a2 ts2).1 =
        .err "Already answered") := by
  obtain ⟨qid, quiz, q, p, hq, hz, hlen, hget, hqt, hv, hp, hd, hpts, hns, hstate⟩ :=
    submit_answer_ok_inv s u a ts ic pts ca ns qt h
  rw [hstate]
  have hgp := gpqi_submitted s u p hp a ts ic
  have hq1 : (submittedState s u p (submittedRecord s u a ts ic)).quiz_id =
      some qid := hq
  have hz1 : dictGet (submittedState s u p (submittedRecord s u a ts ic)).quizzes
      qid = some quiz := hz
  have hlen1 : ¬((quiz.questions.length : Int) ≤
      get_participant_question_index
        (submittedState s u p (submittedRecord s u a ts ic)) u) := by
    rw [hgp]
    exact hlen
  have hget1 : pyGet? quiz.questions
      (get_participant_question_index
        (submittedState s u p (submittedRecord s u a ts ic)) u) = some q := by
    rw [hgp]
    exact hget
  have hp1 : dictGet
      (submittedState s u p (submittedRecord s u a ts ic)).participants u =
      some (submittedParticipant p (submittedRecord s u a ts ic)) :=
    Dict.get_set_self ..
  have hdup1 : ((submittedParticipant p (submittedRecord s u a ts ic)).answers.any
      (fun r => r.question_index == get_participant_question_index
        (submittedState s u p (submittedRecord s u a ts ic)) u)) = true := by
    rw [hgp]
    rw [show (submittedParticipant p (submittedRecord s u a ts ic)).answers =
      p.answers ++ [submittedRecord s u a ts ic] from rfl]
    rw [List.any_append]
    have hbeq : ((submittedRecord s u a ts ic).question_index ==
        get_participant_question_index s u) = true := by
      rw [show (submittedRecord s u a ts ic).question_index =
        get_participant_question_index s u from rfl]
      exact beq_self_eq_true _
    simp [hbeq]
  have hmain := submit_answer_duplicate
      (submittedState s u p (submittedRecord s u a ts ic)) u a2 ts2 qid quiz q
      (submittedParticipant p (submittedRecord s u a ts ic))
      hq1 hz1 hlen1 hget1 hp1 hdup1
  refine ⟨hmain.1, fun hs => ?_⟩
  subst hqt
  obtain ⟨b2, hb2⟩ := validate_shape_vok q a a2 (q.qtype.getD "singleMcq") ic hv hs
  exact hmain.2 b2 hb2

/-- The stored participant after a correct answer on question 0. -/
def dupParticipant : Participant :=
  { user_id := "u1", username := "P", joined_at := "t0", connected := true,
    score := 1000,
    answers := [{ question_index := 0, answer := .int 0, timestamp := 0,
                  is_correct := true, points_earned := 1000 }] }

/-- demoState with the question-0 answer already recorded. -/
def demoDupState : GameState :=
  { demoState with participants := [("u1", dupParticipant)],
                   cursors := [("u1", 0)] }

/-- C4 counterexample: the participant already holds an AnswerRecord for
their current question_index, yet a second submission whose answer value
is a list (on a singleMcq question) raises a TypeError instead of
returning the error "Already answered"; the stored state is unchanged. -/
theorem c4_counterexample :
    dictGet demoDupState.participants "u1" = some dupParticipant ∧
    (dupParticipant.answers.any (fun r => r.question_index ==
      get_participant_question_index demoDupState "u1")) = true ∧
    (submit_answer demoDupState "u1" (.list [0]) 5).1 = .exn "TypeError" ∧
    ¬((submit_answer demoDupState "u1" (.list [0]) 5).1 =
      .err "Already answered") ∧
    (submit_answer demoDupState "u1" (.list [0]) 5).2 = demoDupState := by
  decide

theorem c4_duplicate_answer_witness :
    (submit_answer (submit_answer demoState "u1" (.int 0) 0).2 "u1"
      (.int 1) 5).1 = .err "Already answered" :=
  (c4_duplicate_answer demoState "u1" (.int 0) 0 true 1000 (.strA "0") 1000
    "singleMcq" (.int 1) 5 (by decide)).2 (by decide)


/-- The comparison the code sorts by, as a proposition on consecutive
rows: score descending, then answered_count ascending. -/
def lbOrdered (x y : LeaderboardEntry) : Prop :=
  y.score ≤ x.score ∧ (x.score = y.score → x.answered_count ≤ y.answered_count)

theorem lbKeyLt_iff (a b : Int × Nat) :
    lbKeyLt a b = true ↔ (a.1 < b.1 ∨ (a.1 = b.1 ∧ a.2 < b.2)) := by
  unfold lbKeyLt
  simp [Bool.or_eq_true, Bool.and_eq_true, decide_eq_true_eq, beq_iff_eq]

theorem ord_of_lt (x y : LeaderboardEntry)
    (h : lbKeyLt (lbKey x) (lbKey y) = true) : lbOrdered x y := by
  rw [lbKeyLt_iff] at h
  unfold lbKey at h
  unfold lbOrdered
  dsimp only at h
  constructor
  · rcases h with h | ⟨h1, _⟩
    · omega
    · omega
  · intro he
    rcases h with h | ⟨h1, h2⟩
    · omega
    · omega

theorem ord_of_not_lt (x y : LeaderboardEntry)
    (h : ¬ lbKeyLt (lbKey x) (lbKey y) = true) : lbOrdered y x := by
  rw [lbKeyLt_iff] at h
  unfold lbKey at h
  unfold lbOrdered
  dsimp only at h
  push_neg at h
  constructor
  · omega
  · intro he
    omega

theorem lbOrdered_trans (x y z : LeaderboardEntry)
    (h1 : lbOrdered x y) (h2 : lbOrdered y z) : lbOrdered x z := by
  unfold lbOrdered at *
  constructor
  · omega
  · intro he
    omega

theorem key_ne_of_lt_ord (x y z : LeaderboardEntry)
    (hlt : lbKeyLt (lbKey x) (lbKey y) = true) (hord : lbOrdered y z) :
    lbKey z ≠ lbKey x := by
  rw [lbKeyLt_iff] at hlt
  unfold lbKey at hlt ⊢
  unfold lbOrdered at hord
  dsimp only at hlt ⊢
  intro he
  rw [Prod.mk.injEq] at he
  rcases hlt with h | ⟨h1, h2⟩ <;> omega

theorem mem_insertStable {x z : LeaderboardEntry} :
    ∀ {l : List LeaderboardEntry}, z ∈ insertStable x l → z = x ∨ z ∈ l := by
  intro l
  induction l with
  | nil => intro h; simpa [insertStable] using h
  | cons y ys ih =>
      intro h
      unfold insertStable at h
      by_cases hlt : lbKeyLt (lbKey x) (lbKey y) = true
      · rw [if_pos hlt] at h
        rcases List.mem_cons.mp h with rfl | h
        · exact Or.inl rfl
        · exact Or.inr h
      · rw [if_neg hlt] at h
        rcases List.mem_cons.mp h with heq | h
        · exact Or.inr (by rw [heq]; exact List.mem_cons_self _ _)
        · rcases ih h with h' | h'
          · exact Or.inl h'
          · exact Or.inr (List.mem_cons_of_mem y h')

theorem perm_insertStable (x : LeaderboardEntry) :
    ∀ l : List LeaderboardEntry, (insertStable x l).Perm (x :: l) := by
  intro l
  induction l with
  | nil => exact List.Perm.refl _
  | cons y ys ih =>
      unfold insertStable
      by_cases hlt : lbKeyLt (lbKey x) (lbKey y) = true
      · rw [if_pos hlt]
      · rw [if_neg hlt]
        exact (ih.cons y).trans (List.Perm.swap x y ys)

theorem pairwise_insertStable (x : LeaderboardEntry) :
    ∀ l : List LeaderboardEntry, l.Pairwise lbOrdered →
      (insertStable x l).Pairwise lbOrdered := by
  intro l
  induction l with
  | nil => intro _; simp [insertStable, List.pairwise_cons]
  | cons y ys ih =>
      intro h
      rw [List.pairwise_cons] at h
      unfold insertStable
      by_cases hlt : lbKeyLt (lbKey x) (lbKey y) = true
      · rw [if_pos hlt]
        rw [List.pairwise_cons]
        refine ⟨?_, List.pairwise_cons.mpr h⟩
        intro z hz
        rcases List.mem_cons.mp hz with heq | hz
        · rw [heq]
          exact ord_of_lt x y hlt
        · exact lbOrdered_trans x y z (ord_of_lt x y hlt) (h.1 z hz)
      · rw [if_neg hlt]
        rw [List.pairwise_cons]
        constructor
        · intro z hz
          rcases mem_insertStable hz with heq | hz'
          · rw [heq]
            exact ord_of_not_lt x y hlt
          · exact h.1 z hz'
        · exact ih h.2

theorem filter_insertStable (x : LeaderboardEntry) (k : Int × Nat) :
    ∀ l : List LeaderboardEntry, l.Pairwise lbOrdered →
      (insertStable x l).filter (fun e => decide (lbKey e = k)) =
        if lbKey x = k then
          (l.filter (fun e => decide (lbKey e = k))) ++ [x]
        else l.filter (fun e => decide (lbKey e = k)) := by
  intro l
  induction l with
  | nil =>
      intro _
      by_cases hk : lbKey x = k
      · rw [if_pos hk]
        simp [insertStable, hk]
      · rw [if_neg hk]
        simp [insertStable, hk]
  | cons y ys ih =>
      intro h
      rw [List.pairwise_cons] at h
      unfold insertStable
      by_cases hlt : lbKeyLt (lbKey x) (lbKey y) = true
      · rw [if_pos hlt]
        by_cases hk : lbKey x = k
        · rw [if_pos hk]
          have hnil : (y :: ys).filter (fun e => decide (lbKey e = k)) = [] := by
            rw [List.filter_eq_nil_iff]
            intro z hz
            have hzk : lbKey z ≠ lbKey x := by
              rcases List.mem_cons.mp hz with heq | hz'
              · rw [heq]
                intro he
                rw [lbKeyLt_iff] at hlt
                rw [he] at hlt
                rcases hlt with h' | ⟨h1, h2⟩ <;> omega
              · exact key_ne_of_lt_ord x y z hlt (h.1 z hz')
            simp [hk ▸ hzk]
          rw [List.filter_cons_of_pos (by simp [hk])]
          rw [hnil]
          rfl
        · rw [if_neg hk]
          rw [List.filter_cons_of_neg (by simp [hk])]
      · rw [if_neg hlt]
        by_cases hy : lbKey y = k
        · rw [List.filter_cons_of_pos (by simp [hy]),
              List.filter_cons_of_pos (by simp [hy])]
          rw [ih h.2]
          by_cases hk : lbKey x = k
          · rw [if_pos hk, if_pos hk]
            rfl
          · rw [if_neg hk, if_neg hk]
        · rw [List.filter_cons_of_neg (by simp [hy]),
              List.filter_cons_of_neg (by simp [hy])]
          exact ih h.2

theorem pairwise_foldl_ins :
    ∀ (xs acc : List LeaderboardEntry), acc.Pairwise lbOrdered →
      (xs.foldl (fun acc x => insertStable x acc) acc).Pairwise lbOrdered := by
  intro xs
  induction xs with
  | nil => intro acc h; exact h
  | cons x xs ih =>
      intro acc h
      rw [List.foldl_cons]
      exact ih (insertStable x acc) (pairwise_insertStable x acc h)

theorem perm_foldl_ins :
    ∀ (xs acc : List LeaderboardEntry),
      (xs.foldl (fun acc x => insertStable x acc) acc).Perm (acc ++ xs) := by
  intro xs
  induction xs with
  | nil => intro acc; simp
  | cons x xs ih =>
      intro acc
      rw [List.foldl_cons]
      exact (ih (insertStable x acc)).trans
        (((perm_insertStable x acc).append_right xs).trans List.perm_middle.symm)

theorem filter_foldl_ins (k : Int × Nat) :
    ∀ (xs acc : List LeaderboardEntry), acc.Pairwise lbOrdered →
      (xs.foldl (fun acc x => insertStable x acc) acc).filter
          (fun e => decide (lbKey e = k)) =
        acc.filter (fun e => decide (lbKey e = k)) ++
          xs.filter (fun e => decide (lbKey e = k)) := by
  intro xs
  induction xs with
  | nil => intro acc _; simp
  | cons x xs ih =>
      intro acc h
      rw [List.foldl_cons]
      rw [ih (insertStable x acc) (pairwise_insertStable x acc h)]
      rw [filter_insertStable x k acc h]
      by_cases hk : lbKey x = k
      · rw [if_pos hk]
        rw [List.filter_cons_of_pos (by simp [hk])]
        rw [List.append_assoc]
        rfl
      · rw [if_neg hk]
        rw [List.filter_cons_of_neg (by simp [hk])]

theorem pairwise_stableSortLb (xs : List LeaderboardEntry) :
    (stableSortLb xs).Pairwise lbOrdered :=
  pairwise_foldl_ins xs [] List.Pairwise.nil

theorem perm_stableSortLb (xs : List LeaderboardEntry) :
    (stableSortLb xs).Perm xs := by
  have h := perm_foldl_ins xs []
  simpa using h

theorem filter_stableSortLb (k : Int × Nat) (xs : List LeaderboardEntry) :
    (stableSortLb xs).filter (fun e => decide (lbKey e = k)) =
      xs.filter (fun e => decide (lbKey e = k)) := by
  have h := filter_foldl_ins k xs [] List.Pairwise.nil
  simpa using h

/-- A leaderboard row with its assigned position cleared, for comparing
rows independently of the rank that get_leaderboard stamps on them. -/
def stripPos (e : LeaderboardEntry) : LeaderboardEntry :=
  { e with position := 0 }

theorem map_pos_enumFrom :
    ∀ (l : List LeaderboardEntry) (n : Nat),
      ((l.enumFrom n).map
          (fun pr => { pr.2 with position := pr.1 + 1 })).map
          (fun e => e.position) =
        List.range' (n + 1) l.length := by
  intro l
  induction l with
  | nil => intro n; rfl
  | cons x xs ih =>
      intro n
      rw [show List.enumFrom n (x :: xs) = (n, x) :: List.enumFrom (n + 1) xs
            from by simp [List.enumFrom]]
      rw [List.map_cons, List.map_cons]
      rw [ih (n + 1)]
      rw [List.length_cons, List.range'_succ]

theorem strip_enum_map :
    ∀ l : List LeaderboardEntry,
      ((l.enum.map (fun pr => { pr.2 with position := pr.1 + 1 })).map
          stripPos) = l.map stripPos := by
  intro l
  rw [List.map_map]
  have hc : stripPos ∘
      (fun pr : Nat × LeaderboardEntry => { pr.2 with position := pr.1 + 1 }) =
      stripPos ∘ Prod.snd := by
    funext pr
    rfl
  rw [hc]
  rw [← List.map_map]
  rw [List.enum_map_snd]

/-- The ordering relation the specification claims for the leaderboard:
score descending, ties broken ascending by answered_count, then a final
tie-break ascending by user_id. -/
def specLbOrdered (x y : LeaderboardEntry) : Prop :=
  y.score < x.score ∨
    (x.score = y.score ∧
      (x.answered_count < y.answered_count ∨
        (x.answered_count = y.answered_count ∧ x.user_id ≤ y.user_id)))

/-- The demo session with two tied participants who joined in the order
"b" then "a": identical scores and answer counts, distinct user ids. -/
def demoTieState : GameState :=
  { demoState with
      participants :=
        [("b", freshParticipant "b" "B"), ("a", freshParticipant "a" "A")] }

/-- C5: the computed leaderboard is sorted by the code's comparator
(score descending, then answered_count ascending), positions are the
dense sequence 1..N, the rows are a permutation of the unsorted rows
(up to the stamped position), and rows with equal sort keys keep their
participants-map order (Python's sort is stable) — so the output is
deterministic for a fixed participants-map order; there is no user_id
tie-break. -/
theorem c5_leaderboard_order (s : GameState) :
    (get_leaderboard s).Pairwise lbOrdered ∧
    (get_leaderboard s).map (fun e => e.position) =
      List.range' 1 (lbEntries s).length ∧
    ((get_leaderboard s).map stripPos).Perm ((lbEntries s).map stripPos) ∧
    ∀ k : Int × Nat,
      ((get_leaderboard s).map stripPos).filter (fun e => decide (lbKey e = k)) =
        ((lbEntries s).map stripPos).filter (fun e => decide (lbKey e = k)) := by
  refine ⟨?_, ?_, ?_, ?_⟩
  · unfold get_leaderboard
    have h := pairwise_stableSortLb (lbEntries s)
    rw [← List.enum_map_snd (stableSortLb (lbEntries s))] at h
    have h2 := List.pairwise_map.mp h
    exact List.pairwise_map.mpr (h2.imp (fun hab => hab))
  · unfold get_leaderboard
    have hl := (perm_stableSortLb (lbEntries s)).length_eq
    have h2 := map_pos_enumFrom (stableSortLb (lbEntries s)) 0
    rw [hl] at h2
    exact h2
  · unfold get_leaderboard
    rw [strip_enum_map]
    exact (perm_stableSortLb (lbEntries s)).map stripPos
  · intro k
    unfold get_leaderboard
    rw [strip_enum_map]
    rw [List.filter_map stripPos, List.filter_map stripPos]
    have hps : ((fun e => decide (lbKey e = k)) ∘ stripPos) =
        (fun e : LeaderboardEntry => decide (lbKey e = k)) := by
      funext e
      rfl
    rw [hps]
    rw [filter_stableSortLb k (lbEntries s)]

/-- C5 counterexample: two participants tied on score and answer count
who joined in the order "b", "a" are listed in that join order, so the
leaderboard violates the claimed ascending user_id tie-break. -/
theorem c5_leaderboard_order_counterexample :
    (get_leaderboard demoTieState).map (fun e => e.user_id) = ["b", "a"] ∧
    ¬ (get_leaderboard demoTieState).Pairwise specLbOrdered := by
  constructor
  · decide
  · intro hpw
    have hlb : get_leaderboard demoTieState =
        [{ user_id := "b", username := "B", score := 0, answered_count := 0,
           total_questions := 2, current_question := 1, is_connected := true,
           position := 1 },
         { user_id := "a", username := "A", score := 0, answered_count := 0,
           total_questions := 2, current_question := 1, is_connected := true,
           position := 2 }] := by decide
    rw [hlb] at hpw
    have h := (List.pairwise_cons.mp hpw).1 _ (List.mem_cons_self _ _)
    unfold specLbOrdered at h
    rcases h with h | ⟨_, h⟩
    · exact absurd h (by decide)
    · rcases h with h | ⟨_, hle⟩
      · exact absurd h (by decide)
      · rw [String.le_iff_toList_le] at hle
        exact absurd hle (by decide)

/-- C5 witness: the ordering and dense-position facts evaluated on the
demo session. -/
theorem c5_leaderboard_order_witness :
    (get_leaderboard demoState).Pairwise lbOrdered ∧
    (get_leaderboard demoState).map (fun e => e.position) =
      List.range' 1 (lbEntries demoState).length :=
  ⟨(c5_leaderboard_order demoState).1, (c5_leaderboard_order demoState).2.1⟩

theorem gqbi_index (s : GameState) (i : Int) (qd : QuestionPayload)
    (h : get_question_by_index s i = .ok (some qd)) : qd.index = i := by
  unfold get_question_by_index at h
  dsimp only at h
  repeat' split at h
  all_goals first
    | exact Except.noConfusion h
    | exact Option.noConfusion (Except.ok.inj h)
    | rw [← Option.some.inj (Except.ok.inj h)]

/-- The demo quiz with the text of its second question blank. -/
def demoBlankQuiz : QuizDoc :=
  { title := "Demo"
    questions :=
      [{ questionText := some "Q0?", questionField := none,
         qtype := some "singleMcq", qid := none, options := ["a", "b"],
         correctAnswerIndex := some 0, correctAnswerIndices := none,
         correctMatches := none },
       { questionText := some "   ", questionField := none,
         qtype := some "singleMcq", qid := none, options := ["a", "b"],
         correctAnswerIndex := some 1, correctAnswerIndices := none,
         correctMatches := none }] }

/-- The demo session playing the quiz whose second question is blank. -/
def demoBlankState : GameState :=
  { demoState with quizzes := [("q", demoBlankQuiz)] }

/-- C6: with cursor c, a request_next_question at c ≥ total − 1 replies
quiz_completed and leaves the state unchanged; below that the cursor is
set to c + 1 and the participant gets the question at index c + 1 when
retrieval yields one — but quiz_completed (with the cursor already moved)
when retrieval yields none, which happens for blank question text even
though questions remain. -/
theorem c6_request_next_question (s : GameState) (u : String) (c : Int)
    (hc : get_participant_question_index s u = c) :
    (get_total_questions s - 1 ≤ c →
      handle_request_next_question s u =
        (.sent [.personal (.quiz_completed (get_final_results s))], s)) ∧
    (c < get_total_questions s - 1 →
      (handle_request_next_question s u).2 =
          set_participant_question_index s u (c + 1) ∧
      (∀ qd : QuestionPayload,
          get_question_by_index (set_participant_question_index s u (c + 1)) (c + 1) =
              .ok (some qd) →
          handle_request_next_question s u =
            (.sent [.personal (.questionMsg qd)],
              set_participant_question_index s u (c + 1)) ∧
          qd.index = c + 1) ∧
      (get_question_by_index (set_participant_question_index s u (c + 1)) (c + 1) =
            .ok none →
        handle_request_next_question s u =
          (.sent [.personal (.quiz_completed
              (get_final_results (set_participant_question_index s u (c + 1))))],
            set_participant_question_index s u (c + 1)))) := by
  unfold handle_request_next_question
  dsimp only
  rw [hc]
  constructor
  · intro h
    rw [if_pos h]
  · intro h
    rw [if_neg (by omega)]
    refine ⟨?_, ?_, ?_⟩
    · split <;> rfl
    · intro qd hq
      rw [hq]
      exact ⟨rfl, gqbi_index _ _ _ hq⟩
    · intro hq
      rw [hq]

/-- C6 counterexample: in the demo session with a blank second question,
the participant's cursor 0 is strictly below total − 1, yet the reply is
quiz_completed rather than a question message, and the cursor has moved
to 1. -/
theorem c6_request_next_question_counterexample :
    get_participant_question_index demoBlankState "u1" <
      get_total_questions demoBlankState - 1 ∧
    (handle_request_next_question demoBlankState "u1").1 =
      .sent [.personal (.quiz_completed (get_final_results
        (set_participant_question_index demoBlankState "u1" 1)))] := by
  constructor
  · decide
  · decide

/-- C6 witness: in the demo session the request moves the cursor from 0
to 1. -/
theorem c6_request_next_question_witness :
    (handle_request_next_question demoState "u1").2 =
      set_participant_question_index demoState "u1" (0 + 1) :=
  ((c6_request_next_question demoState "u1" 0 (by decide)).2 (by decide)).1

/-- C3: the next_question flow is dead code: GameController defines no
next_question method, so for the host the handler's attribute lookup
raises AttributeError (which the dispatch loop swallows), nothing is
broadcast, and no caller ever changes the state — the synchronous cursor
is never advanced. -/
theorem c3_next_question_broken (s : GameState) (u : String)
    (h : is_host s u = true) :
    ("next_question" ∉ gameControllerMethods) ∧
    handle_next_question s u =
      (.raised "AttributeError: GameController object has no attribute next_question",
        s) ∧
    (∀ v, (handle_next_question s v).2 = s) := by
  have h2 : handle_next_question s u =
      (.raised "AttributeError: GameController object has no attribute next_question",
        s) := by
    unfold handle_next_question
    rw [h]
    rfl
  refine ⟨by decide, h2, ?_⟩
  intro v
  unfold handle_next_question
  split
  · rfl
  · rfl

/-- C3 witness: the demo host's next_question message raises and leaves
the demo state untouched. -/
theorem c3_next_question_broken_witness :
    handle_next_question demoState "H" =
      (.raised "AttributeError: GameController object has no attribute next_question",
        demoState) :=
  (c3_next_question_broken demoState "H" (by decide)).2.1

/-- C2: the create-session route can never answer 200: it passes the
keyword per_question_time_limit, which SessionManager.create_session does
not declare, so the call raises TypeError and the blanket except maps it
to HTTP 500 for every request naming an existing quiz. -/
theorem c2_create_session_http (code : String) :
    ("per_question_time_limit" ∈ createSessionCallKwargs) ∧
    ("per_question_time_limit" ∉ createSessionParams) ∧
    create_live_session true code =
      .httpError 500
        "Error creating live session: create_session() got an unexpected keyword argument" ∧
    (∀ (q : Bool) (c : String) (success : Bool) (sc msg : String),
      create_live_session q c ≠ .ok200 success sc msg) := by
  refine ⟨by decide, by decide, rfl, ?_⟩
  intro q c success sc msg
  cases q
  · exact fun h => CreateSessionHttp.noConfusion h
  · exact fun h => CreateSessionHttp.noConfusion h

end Queez
